import Mathlib

/-!
# GridGuard: verification of the parallel query dispatcher and the synthetic data generator

This file gives a shallow embedding of two parts of the GridGuard repository:

* `run_queries_parallel` and its inner `execute_query`
  (src/streamlit/utils/data_loader.py), the parallel read-only query
  dispatcher used by the dashboard pages; and
* `generate_historical_telemetry`, `main`'s output-directory argument and the
  fixed random seed of the synthetic data generator
  (src/utils/generate_synthetic_data.py).

The external warehouse session is modelled as a function from SQL text to a
result: either a tabular result (the pandas DataFrame returned by
`session.sql(sql).to_pandas()`) or a raised exception carrying its
stringified message.  `as_completed` yields futures in an arbitrary order, so
the collection loop is embedded as a fold over an arbitrary permutation
`completed` of the submitted `queries.items()` list; every theorem quantifies
over that permutation.  Python's `random` module is modelled as a
deterministic stream of unit-interval rationals computed from the seed.
-/

namespace GridGuard

/-! ## Tabular results and the warehouse session (data_loader.py) -/

/-- A tabular result (`pandas.DataFrame`): a list of rows of cells.  Only its
identity and row count matter to the dispatcher, which treats it as opaque. -/
abbrev DF := List (List String)

/-- What one call `session.sql(sql).to_pandas()` does: return a DataFrame or
raise an exception whose `str(e)` is the given string. -/
inductive SqlResult where
  | ok : DF → SqlResult
  | exn : String → SqlResult
  deriving DecidableEq

/-- The warehouse session: each SQL text deterministically produces a result
or raises.  Queries are independent read-only statements, so the session is a
pure map from SQL text to outcome. -/
abbrev Session := String → SqlResult

/-- Embeds the inner `execute_query` of `run_queries_parallel`
(data_loader.py lines 40-46):

    try:
        df = session.sql(sql).to_pandas()
        return name, df, None
    except Exception as e:
        return name, None, str(e)
-/
def execute_query (session : Session) (name sql : String) :
    String × Option DF × Option String :=
  match session sql with
  | .ok df => (name, some df, none)
  | .exn e => (name, none, some e)

/-! ## The results dict

`results` is a Python dict from result name to a DataFrame or `None`; it is
embedded as an association list with first-match lookup and
update-in-place-or-append insertion (Python dict semantics). -/

/-- `results[k] = v` on a Python dict: update the existing binding in place,
else append. -/
def dictInsert (m : List (String × Option DF)) (k : String) (v : Option DF) :
    List (String × Option DF) :=
  match m with
  | [] => [(k, v)]
  | (k0, v0) :: rest =>
      if k0 = k then (k, v) :: rest else (k0, v0) :: dictInsert rest k v

/-- `m[k]`: `some v` when the key is bound to `v`, `none` when absent. -/
def dictLookup (m : List (String × Option DF)) (k : String) :
    Option (Option DF) :=
  match m with
  | [] => none
  | (k0, v0) :: rest => if k0 = k then some v0 else dictLookup rest k

/-- The key list of the dict. -/
def dictKeys (m : List (String × Option DF)) : List String := m.map Prod.fst

/-! ## The collection loop of `run_queries_parallel` -/

/-- Python truthiness of the `error` component (`None` or a `str`) in
`if error:` (data_loader.py line 57): truthy exactly when it is a non-empty
string. -/
def isTruthyError : Option String → Bool
  | none => false
  | some e => e != ""

/-- The `st.error` message emitted for a failed query
(data_loader.py line 58). -/
def failMsg (name e : String) : String :=
  "Query '" ++ name ++ "' failed: " ++ e

/-- The state built by the collection loop: the `results` dict, the
`st.error` warnings emitted so far (in order), and — as instrumentation for
the concurrency claims — how many times `execute_query` has been invoked. -/
structure DispatchState where
  results : List (String × Option DF)
  warnings : List String
  executorCalls : Nat
  deriving DecidableEq

/-- One iteration of the `for future in as_completed(futures)` body
(data_loader.py lines 55-62) applied to the triple returned by
`execute_query`:

    name, df, error = future.result()
    if error:
        st.error(f"Query '{name}' failed: {error}")
        results[name] = None
    else:
        results[name] = df
-/
def collectOne (st : DispatchState) (t : String × Option DF × Option String) :
    DispatchState :=
  if isTruthyError t.2.2 then
    { st with
      results := dictInsert st.results t.1 none
      warnings := st.warnings ++ [failMsg t.1 (t.2.2.getD "")] }
  else
    { st with results := dictInsert st.results t.1 t.2.1 }

/-- The value `run_queries_parallel` leaves in `results` for a completed
triple: `None` on the truthy-error branch, the returned DataFrame slot
otherwise. -/
def storedVal (t : String × Option DF × Option String) : Option DF :=
  if isTruthyError t.2.2 then none else t.2.1

/-- Running one submitted query to completion and collecting its result:
the worker invokes `execute_query` (counted by the instrumentation) and the
coordinator folds the returned triple into the state. -/
def dispatchStep (session : Session) (st : DispatchState)
    (q : String × String) : DispatchState :=
  collectOne { st with executorCalls := st.executorCalls + 1 }
    (execute_query session q.1 q.2)

/-- Embeds `run_queries_parallel` (data_loader.py lines 14-64).  `queries`
is submitted as the list `queries.items()`; `as_completed` yields the
corresponding futures in an arbitrary order, so the embedding takes the
completion order `completed` — a permutation of the items — and folds the
collection body over it, starting from an empty `results` dict.
`max_workers` bounds the pool (see `PoolSchedule`) but does not affect which
values are collected. -/
def run_queries_parallel (session : Session) (max_workers : Nat)
    (completed : List (String × String)) : DispatchState :=
  completed.foldl (dispatchStep session) ⟨[], [], 0⟩

/-! ## The bounded worker pool

`run_queries_parallel` hands all submitted tasks to
`ThreadPoolExecutor(max_workers=max_workers)` (data_loader.py lines 48-53).
That pool's semantics — `k` worker threads, each running at most one task at
a time, tasks on the same worker strictly one after another — is embedded as
a schedule: an assignment of each of the `n` submitted tasks to one of the
`k` workers together with start/finish instants, such that two tasks on the
same worker occupy disjoint time intervals. -/

/-- An execution of `n` submitted tasks on a pool of `k` worker threads.
`worker i` is the thread that runs task `i`; the task occupies the half-open
interval `[startT i, finishT i)`.  Tasks assigned to the same worker run
strictly one after the other. -/
structure PoolSchedule (k n : Nat) where
  worker : Fin n → Fin k
  startT : Fin n → Nat
  finishT : Fin n → Nat
  start_lt_finish : ∀ i, startT i < finishT i
  worker_sequential : ∀ i j, i ≠ j → worker i = worker j →
    finishT i ≤ startT j ∨ finishT j ≤ startT i

/-- The tasks whose `execute_query` call is in flight at instant `t`. -/
def activeAt {k n : Nat} (s : PoolSchedule k n) (t : Nat) : Finset (Fin n) :=
  Finset.univ.filter (fun i => s.startT i ≤ t ∧ t < s.finishT i)

/-- A concrete two-task schedule on a one-worker pool: task 0 runs during
`[0, 1)`, task 1 during `[1, 2)`. -/
def schedTwo : PoolSchedule 1 2 where
  worker := fun _ => 0
  startT := fun i => i.val
  finishT := fun i => i.val + 1
  start_lt_finish := fun i => Nat.lt_succ_self _
  worker_sequential := by decide

/-! ## Concrete instances used by the witnesses and the counterexample -/

/-- A session on which every query succeeds with an empty table. -/
def sessionOk : Session := fun _ => .ok []

/-- A session on which the payload `"FAILQ"` raises an exception that
stringifies to `"boom"` and every other payload returns a three-row table. -/
def sessionCex : Session := fun sql =>
  if sql = "FAILQ" then .exn "boom" else .ok [["r1"], ["r2"], ["r3"]]

/-- A session on which the payload `"FAILQ"` raises an exception that
stringifies to the empty string and every other payload returns a three-row
table. -/
def sessionEmptyErr : Session := fun sql =>
  if sql = "FAILQ" then .exn "" else .ok [["r1"], ["r2"], ["r3"]]

/-- The two-request batch of the spec's concrete scenario:
`{"a": fail_payload, "b": ok_payload_returning_3_rows}`. -/
def queriesCex : List (String × String) := [("a", "FAILQ"), ("b", "OKQ")]

/-! ## The synthetic data generator (generate_synthetic_data.py)

Python's `random` module, seeded once at module load with
`random.seed(RANDOM_SEED)`, is modelled as a deterministic stream of
unit-interval rationals computed from the seed; every `random.*` call
consumes the next stream element.  The concrete recurrence below stands in
for the Mersenne Twister: only that the stream is a pure function of the
seed matters to the claims. -/

/-- `RANDOM_SEED = 42` (generate_synthetic_data.py line 32). -/
def RANDOM_SEED : Nat := 42

/-- `DEFAULT_OUTPUT_DIR = Path(__file__).parent.parent / "data" / "synthetic"`
(line 36): the repository's data/synthetic directory, relative to the
directory holding `utils/`. -/
def DEFAULT_OUTPUT_DIR : String := "data/synthetic"

/-- `main`'s argparse handling of `--output-dir` (lines 461-471): the given
value when the flag is passed, `DEFAULT_OUTPUT_DIR` otherwise. -/
def parse_output_dir (arg : Option String) : String := arg.getD DEFAULT_OUTPUT_DIR

/-- `SCENARIOS` (line 57). -/
def SCENARIOS : List String := ["BASE_CASE", "HIGH_LOAD", "WINTER_STORM_2021"]

/-- `PATIENT_ZERO_NODE_ID` (line 60). -/
def PATIENT_ZERO_NODE_ID : String := "SUB_PERMIAN_07"

/-- The stream of values successive `random.*` calls draw from: element `i`
is the unit-interval value behind the `i`-th call. -/
abbrev RandStream := Nat → ℚ

/-- One step of the stand-in 64-bit linear-congruential recurrence. -/
def lcgNext (s : Nat) : Nat :=
  (6364136223846793005 * s + 1442695040888963407) % 2 ^ 64

/-- The unit-interval stream `random.seed(seed)` determines. -/
def seedStream (seed : Nat) : RandStream :=
  fun i => (((lcgNext^[i + 1]) seed % 2 ^ 32 : Nat) : ℚ) / (2 ^ 32 : ℚ)

/-- `random.uniform(a, b)`: `a + (b - a) * random()`, consuming one stream
element; returns the drawn value and the next stream index. -/
def uniform (g : RandStream) (a b : ℚ) (i : Nat) : ℚ × Nat :=
  (a + (b - a) * g i, i + 1)

/-- A grid node as `generate_historical_telemetry` reads it: the generated
node dicts carry more columns, but the telemetry loop reads only
`NODE_ID`, `REGION` (for the cascade construction) and `VOLTAGE_KV`. -/
structure Node where
  node_id : String
  region : String
  voltage_kv : ℚ
  deriving DecidableEq

/-- Does `need` occur at the start of `hay`? -/
def charsStart (need hay : List Char) : Bool :=
  match need, hay with
  | [], _ => true
  | _ :: _, [] => false
  | c :: cs, d :: ds => c == d && charsStart cs ds

/-- Does `need` occur somewhere in `hay`? -/
def charsContain (need hay : List Char) : Bool :=
  match hay with
  | [] => need.isEmpty
  | _ :: ds => charsStart need hay || charsContain need ds

/-- Python's `needle in haystack` on strings. -/
def strContains (hay need : String) : Bool := charsContain need.data hay.data

/-- One iteration of the cascade-sequence loop (lines 222-228): Permian
Basin nodes always join the cascade, any other node joins with probability
0.3 (`random.random() < 0.3` consumes one stream element, drawn only when
the region test fails). -/
def cascadeStep (g : RandStream) (acc : List String × Nat) (node : Node) :
    List String × Nat :=
  if node.node_id ≠ PATIENT_ZERO_NODE_ID then
    if strContains node.region "Permian" then (acc.1 ++ [node.node_id], acc.2)
    else if g acc.2 < 3 / 10 then (acc.1 ++ [node.node_id], acc.2 + 1)
    else (acc.1, acc.2 + 1)
  else acc

/-- `cascade_sequence` (lines 219-230): Patient Zero first, then the nodes
the loop adds, truncated to 15; also returns the next stream index. -/
def buildCascade (g : RandStream) (nodes : List Node) (rix : Nat) :
    List String × Nat :=
  let p := nodes.foldl (cascadeStep g) ([PATIENT_ZERO_NODE_ID], rix)
  (p.1.take 15, p.2)

/-- `round(q, d)`.  Python rounds ties to even; the claims never depend on
tie behaviour, so round-half-up stands in. -/
def roundTo (d : Nat) (q : ℚ) : ℚ :=
  ((⌊q * (10 ^ d : ℚ) + 1 / 2⌋ : ℤ) : ℚ) / (10 ^ d : ℚ)

/-- Fuel-driven base-10 digit expansion, least significant first; the fuel
argument makes the recursion structural. -/
def natDigitsAux : Nat → Nat → List Nat
  | 0, _ => []
  | _ + 1, 0 => []
  | fuel + 1, n + 1 => (n + 1) % 10 :: natDigitsAux fuel ((n + 1) / 10)

/-- The base-10 digits of `n`, least significant first (`[]` for 0). -/
def natDigits (n : Nat) : List Nat := natDigitsAux n n

/-- The ASCII digit character for `d`. -/
def digitChar (d : Nat) : Char := Char.ofNat (48 + d)

/-- The numeric value of an ASCII digit character. -/
def charDigit (c : Char) : Nat := c.toNat - 48

/-- Python's `f"{n:06d}"`: the decimal digits of `n`, left-padded with
zeros to at least six characters. -/
def pad6 (n : Nat) : String :=
  let ds := (natDigits n).reverse.map digitChar
  String.mk (List.replicate (6 - ds.length) (digitChar 0) ++ ds)

/-- Reads a zero-padded decimal string back to the number: a left inverse
of `pad6`. -/
def unpad (s : String) : Nat :=
  Nat.ofDigits 10 ((s.data.map charDigit).reverse)

/-- `f"TEL_{telemetry_id:06d}"` (line 289). -/
def telFormat (n : Nat) : String := "TEL_" ++ pad6 n

/-- `f"{n:02d}"` for the two-digit clock fields. -/
def pad2 (n : Nat) : String := if n < 10 then "0" ++ toString n else toString n

/-- `timestamp.strftime("%Y-%m-%d %H:%M:%S")` for
`datetime(2021, 2, 14) + timedelta(hours=hour, minutes=minute)` (lines
216 and 235): every offset stays inside Valentine's Day 2021. -/
def fmtTimestamp (hour minute : Nat) : String :=
  "2021-02-14 " ++ pad2 hour ++ ":" ++ pad2 minute ++ ":00"

/-- One row of historical_telemetry.csv (lines 288-299). -/
structure TelemetryRecord where
  telemetry_id : String
  timestamp : String
  node_id : String
  scenario_name : String
  voltage_kv : ℚ
  load_mw : ℚ
  frequency_hz : ℚ
  temperature_f : ℚ
  status : String
  alert_code : String
  deriving DecidableEq

/-- The scenario-dependent values the loop body computes before building a
record: voltage, load, temperature, status, alert code, and the stream
index after its draws. -/
structure Measurements where
  voltage : ℚ
  load : ℚ
  temp : ℚ
  status : String
  alert_code : Option String
  rix : Nat
  deriving DecidableEq

/-- The scenario `if/elif` chain of the loop body (lines 242-287).  The
source binds nothing when `scenario` is outside `SCENARIOS`; that branch is
unreachable for the fixed scenario list and filled with inert values
here. -/
def scenarioMeasurements (g : RandStream) (cascade : List String)
    (scenario : String) (hour : Nat) (node : Node)
    (base_voltage base_load : ℚ) (rix : Nat) : Measurements :=
  if scenario = "BASE_CASE" then
    let v := uniform g (98 / 100) (102 / 100) rix
    let l := uniform g (9 / 10) (11 / 10) v.2
    let t := uniform g 60 85 l.2
    ⟨base_voltage * v.1, base_load * l.1, t.1, "ACTIVE", none, t.2⟩
  else if scenario = "HIGH_LOAD" then
    let v := uniform g (95 / 100) 1 rix
    let l := uniform g (13 / 10) (16 / 10) v.2
    let t := uniform g 90 105 l.2
    let status := if base_load * (14 / 10) < base_load * l.1 then "WARNING"
      else "ACTIVE"
    ⟨base_voltage * v.1, base_load * l.1, t.1, status,
      if status = "WARNING" then some "HIGH_LOAD" else none, t.2⟩
  else if scenario = "WINTER_STORM_2021" then
    let t := uniform g (-5) 20 rix
    if node.node_id ∈ cascade then
      let failure_hour := 6 + cascade.indexOf node.node_id
      if failure_hour ≤ hour then
        ⟨0, 0, t.1, "FAILED", some "CASCADE_FAILURE", t.2⟩
      else if failure_hour - 1 ≤ hour then
        let v := uniform g (7 / 10) (85 / 100) t.2
        let l := uniform g (5 / 10) (8 / 10) v.2
        ⟨base_voltage * v.1, base_load * l.1, t.1, "WARNING",
          some "VOLTAGE_DROP", l.2⟩
      else
        let v := uniform g (9 / 10) 1 t.2
        let l := uniform g (11 / 10) (13 / 10) v.2
        ⟨base_voltage * v.1, base_load * l.1, t.1, "ACTIVE", none, l.2⟩
    else
      let v := uniform g (92 / 100) 1 t.2
      let l := uniform g (12 / 10) (15 / 10) v.2
      ⟨base_voltage * v.1, base_load * l.1, t.1, "ACTIVE", none, l.2⟩
  else
    ⟨0, 0, 0, "ACTIVE", none, rix⟩

/-- One record of the innermost loop body (lines 237-300): draw the base
load, run the scenario branch, draw the frequency jitter, and build the
row for telemetry id `tid`.  Returns the row and the next stream index. -/
def genRecord (g : RandStream) (cascade : List String) (scenario : String)
    (hour minute : Nat) (node : Node) (tid rix : Nat) :
    TelemetryRecord × Nat :=
  let bl := uniform g 50 300 rix
  let m := scenarioMeasurements g cascade scenario hour node node.voltage_kv
    bl.1 bl.2
  let fr := uniform g (-1 / 10) (1 / 10) m.rix
  ({ telemetry_id := telFormat tid
     timestamp := fmtTimestamp hour minute
     node_id := node.node_id
     scenario_name := scenario
     voltage_kv := roundTo 2 m.voltage
     load_mw := roundTo 2 m.load
     frequency_hz := roundTo 3 (60 + fr.1)
     temperature_f := roundTo 1 m.temp
     status := m.status
     alert_code := m.alert_code.getD "" }, fr.2)

/-- `for node in nodes` (line 237): one record per node, `telemetry_id`
incremented after each.  Returns the rows, the next telemetry id, and the
next stream index. -/
def genNodesLoop (g : RandStream) (cascade : List String) (scenario : String)
    (hour minute : Nat) :
    List Node → Nat → Nat → List TelemetryRecord × Nat × Nat
  | [], tid, rix => ([], tid, rix)
  | n :: rest, tid, rix =>
      let p := genRecord g cascade scenario hour minute n tid rix
      let q := genNodesLoop g cascade scenario hour minute rest (tid + 1) p.2
      (p.1 :: q.1, q.2)

/-- `for minute in [0, 15, 30, 45]` (line 234). -/
def genMinutesLoop (g : RandStream) (cascade : List String)
    (scenario : String) (hour : Nat) (nodes : List Node) :
    List Nat → Nat → Nat → List TelemetryRecord × Nat × Nat
  | [], tid, rix => ([], tid, rix)
  | m :: ms, tid, rix =>
      let p := genNodesLoop g cascade scenario hour m nodes tid rix
      let q := genMinutesLoop g cascade scenario hour nodes ms p.2.1 p.2.2
      (p.1 ++ q.1, q.2)

/-- The minute offsets of line 234. -/
def MINUTES : List Nat := [0, 15, 30, 45]

/-- `for hour in range(24)` (line 233). -/
def genHoursLoop (g : RandStream) (cascade : List String) (scenario : String)
    (nodes : List Node) :
    List Nat → Nat → Nat → List TelemetryRecord × Nat × Nat
  | [], tid, rix => ([], tid, rix)
  | h :: hs, tid, rix =>
      let p := genMinutesLoop g cascade scenario h nodes MINUTES tid rix
      let q := genHoursLoop g cascade scenario nodes hs p.2.1 p.2.2
      (p.1 ++ q.1, q.2)

/-- `for scenario in SCENARIOS` (line 232). -/
def genScenariosLoop (g : RandStream) (cascade : List String)
    (nodes : List Node) :
    List String → Nat → Nat → List TelemetryRecord × Nat × Nat
  | [], tid, rix => ([], tid, rix)
  | s :: ss, tid, rix =>
      let p := genHoursLoop g cascade s nodes (List.range 24) tid rix
      let q := genScenariosLoop g cascade nodes ss p.2.1 p.2.2
      (p.1 ++ q.1, q.2)

/-- Embeds `generate_historical_telemetry` (lines 210-310): build the
cascade sequence, then run the scenario × hour × minute × node loops with
`telemetry_id` starting at 1, drawing from the stream `g`. -/
def generate_historical_telemetry (g : RandStream) (nodes : List Node) :
    List TelemetryRecord :=
  let c := buildCascade g nodes 0
  (genScenariosLoop g c.1 nodes SCENARIOS 1 c.2).1

/-- The `(scenario_name, node_id)` label a record carries. -/
def recLabel (r : TelemetryRecord) : String × String :=
  (r.scenario_name, r.node_id)

/-- The header `csv.DictWriter` writes for historical_telemetry.csv. -/
def telemetryHeader : String :=
  "TELEMETRY_ID,TIMESTAMP,NODE_ID,SCENARIO_NAME,VOLTAGE_KV,LOAD_MW,FREQUENCY_HZ,TEMPERATURE_F,STATUS,ALERT_CODE"

/-- One CSV row of a record.  `toString` on the rationals stands in for
Python's float formatting: only that the text is a function of the record
matters to the determinism claim. -/
def recordRow (r : TelemetryRecord) : String :=
  r.telemetry_id ++ "," ++ r.timestamp ++ "," ++ r.node_id ++ "," ++
    r.scenario_name ++ "," ++ toString r.voltage_kv ++ "," ++
    toString r.load_mw ++ "," ++ toString r.frequency_hz ++ "," ++
    toString r.temperature_f ++ "," ++ r.status ++ "," ++ r.alert_code

/-- The CSV text written for a record list: header, then one row per
record, newline-separated. -/
def telemetryCsv (rs : List TelemetryRecord) : String :=
  String.intercalate (String.singleton (Char.ofNat 10))
    (telemetryHeader :: rs.map recordRow)

/-- One run of the generator for a given seed: the historical-telemetry CSV
contents it writes. -/
def generatorRun (seed : Nat) (nodes : List Node) : String :=
  telemetryCsv (generate_historical_telemetry (seedStream seed) nodes)

/-- A degenerate unit-interval stream, used for concrete evaluations. -/
def gZero : RandStream := fun _ => 0

/-- A concrete node for concrete evaluations. -/
def nodeX : Node := ⟨"N1", "West Texas", 138⟩

/-! ## Dict lemmas -/

theorem mem_dictKeys_dictInsert (m : List (String × Option DF))
    (k : String) (v : Option DF) (a : String) :
    a ∈ dictKeys (dictInsert m k v) ↔ a ∈ dictKeys m ∨ a = k := by
  induction m with
  | nil => simp [dictInsert, dictKeys]
  | cons hd tl ih =>
      obtain ⟨k0, v0⟩ := hd
      by_cases h : k0 = k
      · subst h
        simp [dictInsert, dictKeys]
        tauto
      · simp only [dictInsert, if_neg h, dictKeys, List.map_cons, List.mem_cons]
        rw [show (dictKeys (dictInsert tl k v) = (dictInsert tl k v).map Prod.fst) from rfl]
          at *
        rw [show (dictKeys tl = tl.map Prod.fst) from rfl] at ih
        constructor
        · rintro (h1 | h2)
          · tauto
          · rcases ih.mp h2 with h3 | h4 <;> tauto
        · rintro ((h1 | h2) | h3)
          · tauto
          · exact Or.inr (ih.mpr (Or.inl h2))
          · exact Or.inr (ih.mpr (Or.inr h3))

theorem dictLookup_dictInsert_self (m : List (String × Option DF))
    (k : String) (v : Option DF) :
    dictLookup (dictInsert m k v) k = some v := by
  induction m with
  | nil => simp [dictInsert, dictLookup]
  | cons hd tl ih =>
      obtain ⟨k0, v0⟩ := hd
      by_cases h : k0 = k
      · subst h
        simp [dictInsert, dictLookup]
      · simp [dictInsert, dictLookup, if_neg h, ih]

theorem dictLookup_dictInsert_ne (m : List (String × Option DF))
    (k a : String) (v : Option DF) (h : a ≠ k) :
    dictLookup (dictInsert m k v) a = dictLookup m a := by
  induction m with
  | nil => simp [dictInsert, dictLookup, Ne.symm h]
  | cons hd tl ih =>
      obtain ⟨k0, v0⟩ := hd
      by_cases h0 : k0 = k
      · subst h0
        simp [dictInsert, dictLookup, Ne.symm h]
      · simp [dictInsert, dictLookup, if_neg h0, ih]

/-! ## Collection-loop lemmas -/

theorem collectOne_results (st : DispatchState)
    (t : String × Option DF × Option String) :
    (collectOne st t).results = dictInsert st.results t.1 (storedVal t) := by
  unfold collectOne storedVal
  split <;> rfl

theorem collectOne_executorCalls (st : DispatchState)
    (t : String × Option DF × Option String) :
    (collectOne st t).executorCalls = st.executorCalls := by
  unfold collectOne
  split <;> rfl

theorem collectOne_warnings (st : DispatchState)
    (t : String × Option DF × Option String) :
    (collectOne st t).warnings =
      if isTruthyError t.2.2 then st.warnings ++ [failMsg t.1 (t.2.2.getD "")]
      else st.warnings := by
  unfold collectOne
  split <;> simp_all

theorem execute_query_fst (session : Session) (name sql : String) :
    (execute_query session name sql).1 = name := by
  unfold execute_query
  split <;> rfl

theorem dispatchStep_results (session : Session) (st : DispatchState)
    (q : String × String) :
    (dispatchStep session st q).results =
      dictInsert st.results q.1 (storedVal (execute_query session q.1 q.2)) := by
  unfold dispatchStep
  rw [collectOne_results]
  rw [execute_query_fst]

theorem foldl_dispatch_keys (session : Session)
    (l : List (String × String)) :
    ∀ (st : DispatchState) (a : String),
      a ∈ dictKeys (l.foldl (dispatchStep session) st).results ↔
        a ∈ dictKeys st.results ∨ a ∈ l.map Prod.fst := by
  induction l with
  | nil => simp
  | cons hd tl ih =>
      intro st a
      simp only [List.foldl_cons, List.map_cons, List.mem_cons]
      rw [ih]
      rw [show (dispatchStep session st hd).results =
            dictInsert st.results hd.1 (storedVal (execute_query session hd.1 hd.2))
          from dispatchStep_results ..]
      rw [mem_dictKeys_dictInsert]
      tauto

theorem foldl_dispatch_lookup_notmem (session : Session)
    (l : List (String × String)) :
    ∀ (st : DispatchState) (a : String), a ∉ l.map Prod.fst →
      dictLookup (l.foldl (dispatchStep session) st).results a =
        dictLookup st.results a := by
  induction l with
  | nil => simp
  | cons hd tl ih =>
      intro st a ha
      simp only [List.map_cons, List.mem_cons, not_or] at ha
      simp only [List.foldl_cons]
      rw [ih _ _ ha.2]
      rw [dispatchStep_results]
      exact dictLookup_dictInsert_ne _ _ _ _ ha.1

theorem foldl_dispatch_lookup_mem (session : Session)
    (l : List (String × String)) :
    ∀ (st : DispatchState) (n q : String), (n, q) ∈ l →
      (l.map Prod.fst).Nodup →
      dictLookup (l.foldl (dispatchStep session) st).results n =
        some (storedVal (execute_query session n q)) := by
  induction l with
  | nil => simp
  | cons hd tl ih =>
      intro st n q hmem hnd
      simp only [List.map_cons, List.nodup_cons] at hnd
      rcases List.mem_cons.mp hmem with heq | htl
      · subst heq
        simp only [List.foldl_cons]
        rw [foldl_dispatch_lookup_notmem session tl _ _ hnd.1]
        rw [dispatchStep_results]
        exact dictLookup_dictInsert_self ..
      · simp only [List.foldl_cons]
        exact ih _ _ _ htl hnd.2

theorem foldl_dispatch_warnings_mono (session : Session)
    (l : List (String × String)) :
    ∀ (st : DispatchState) (w : String), w ∈ st.warnings →
      w ∈ (l.foldl (dispatchStep session) st).warnings := by
  induction l with
  | nil => simp
  | cons hd tl ih =>
      intro st w hw
      simp only [List.foldl_cons]
      refine ih _ _ ?_
      unfold dispatchStep
      rw [collectOne_warnings]
      split <;> simp [hw]

theorem foldl_dispatch_warning_of_fail (session : Session)
    (l : List (String × String)) :
    ∀ (st : DispatchState) (n q e : String), (n, q) ∈ l →
      session q = .exn e → e ≠ "" →
      failMsg n e ∈ (l.foldl (dispatchStep session) st).warnings := by
  induction l with
  | nil => simp
  | cons hd tl ih =>
      intro st n q e hmem hfail hne
      rcases List.mem_cons.mp hmem with heq | htl
      · subst heq
        simp only [List.foldl_cons]
        refine foldl_dispatch_warnings_mono session tl _ _ ?_
        unfold dispatchStep
        rw [collectOne_warnings]
        rw [execute_query_fst]
        have hexec : execute_query session n q = (n, none, some e) := by
          unfold execute_query
          rw [hfail]
        rw [hexec]
        simp [isTruthyError, hne]
      · simp only [List.foldl_cons]
        exact ih _ _ _ _ htl hfail hne

/-! ## Telemetry-id format lemmas -/

theorem natDigitsAux_zero (fuel : Nat) : natDigitsAux fuel 0 = [] := by
  cases fuel <;> rfl

theorem natDigitsAux_fuel :
    ∀ fuel1 fuel2 m, m ≤ fuel1 → m ≤ fuel2 →
      natDigitsAux fuel1 m = natDigitsAux fuel2 m := by
  intro fuel1
  induction fuel1 with
  | zero =>
      intro fuel2 m hm1 _
      have : m = 0 := Nat.le_zero.mp hm1
      subst this
      rw [natDigitsAux_zero, natDigitsAux_zero]
  | succ f ih =>
      intro fuel2 m hm1 hm2
      match m, fuel2 with
      | 0, fuel2 => rw [natDigitsAux_zero, natDigitsAux_zero]
      | k + 1, 0 => omega
      | k + 1, f2 + 1 =>
          show (k + 1) % 10 :: natDigitsAux f ((k + 1) / 10) =
            (k + 1) % 10 :: natDigitsAux f2 ((k + 1) / 10)
          have hdiv : (k + 1) / 10 < k + 1 := Nat.div_lt_self (Nat.succ_pos k)
            (by omega)
          rw [ih f2 ((k + 1) / 10) (by omega) (by omega)]

theorem natDigits_step (n : Nat) (hn : 0 < n) :
    natDigits n = n % 10 :: natDigits (n / 10) := by
  obtain ⟨k, rfl⟩ := Nat.exists_eq_add_of_lt hn
  simp only [Nat.zero_add] at *
  show natDigitsAux (k + 1) (k + 1) = _
  have hdiv : (k + 1) / 10 < k + 1 := Nat.div_lt_self (Nat.succ_pos k)
    (by omega)
  show (k + 1) % 10 :: natDigitsAux k ((k + 1) / 10) =
    (k + 1) % 10 :: natDigits ((k + 1) / 10)
  rw [natDigitsAux_fuel k ((k + 1) / 10) ((k + 1) / 10) (by omega)
    (Nat.le_refl _)]
  rfl

theorem ofDigits_natDigits (n : Nat) :
    Nat.ofDigits 10 (natDigits n) = n := by
  induction n using Nat.strong_induction_on with
  | _ n ih =>
      rcases Nat.eq_zero_or_pos n with h0 | hpos
      · subst h0
        rfl
      · rw [natDigits_step n hpos, Nat.ofDigits_cons,
          ih (n / 10) (Nat.div_lt_self hpos (by omega))]
        omega

theorem natDigitsAux_lt_base :
    ∀ fuel m d, d ∈ natDigitsAux fuel m → d < 10 := by
  intro fuel
  induction fuel with
  | zero => intro m d h; simp [natDigitsAux] at h
  | succ f ih =>
      intro m d h
      match m with
      | 0 => simp [natDigitsAux] at h
      | k + 1 =>
          rcases List.mem_cons.mp h with h1 | h2
          · subst h1
            exact Nat.mod_lt _ (by omega)
          · exact ih _ _ h2

theorem natDigits_lt_base (n d : Nat) (h : d ∈ natDigits n) : d < 10 :=
  natDigitsAux_lt_base n n d h

theorem charDigit_digitChar (d : Nat) (hd : d < 10) :
    charDigit (digitChar d) = d := by
  interval_cases d <;> rfl

theorem ofDigits_replicate_zero (k : Nat) :
    Nat.ofDigits 10 (List.replicate k 0) = 0 := by
  induction k with
  | zero => rfl
  | succ m ih => rw [List.replicate_succ, Nat.ofDigits_cons, ih]

theorem unpad_pad6 (n : Nat) : unpad (pad6 n) = n := by
  unfold unpad pad6
  show Nat.ofDigits 10
    (((List.replicate (6 - ((natDigits n).reverse.map digitChar).length)
        (digitChar 0) ++ (natDigits n).reverse.map digitChar).map
          charDigit).reverse) = n
  rw [List.map_append, List.map_replicate, List.map_map]
  have hmap : (natDigits n).reverse.map (charDigit ∘ digitChar) =
      (natDigits n).reverse := by
    refine List.map_congr_left ?_ |>.trans (List.map_id _)
    intro d hd
    exact charDigit_digitChar d
      (natDigits_lt_base n d (List.mem_reverse.mp hd))
  rw [hmap, charDigit_digitChar 0 (by omega), List.reverse_append,
    List.reverse_reverse, List.reverse_replicate, Nat.ofDigits_append,
    ofDigits_natDigits, ofDigits_replicate_zero]
  omega

theorem pad6_injective : Function.Injective pad6 := by
  intro a b h
  rw [← unpad_pad6 a, ← unpad_pad6 b, h]

theorem telFormat_injective : Function.Injective telFormat := by
  intro a b h
  refine pad6_injective (String.ext ?_)
  have hd := congrArg String.data h
  unfold telFormat at hd
  rw [String.data_append, String.data_append] at hd
  exact List.append_cancel_left hd

/-! ## Telemetry-loop lemmas

For each loop level: the outgoing telemetry id, the list of telemetry ids,
and the list of `(scenario, node_id)` labels of the produced rows. -/

theorem genRecord_telemetry_id (g : RandStream) (cascade : List String)
    (scenario : String) (hour minute : Nat) (node : Node) (tid rix : Nat) :
    (genRecord g cascade scenario hour minute node tid rix).1.telemetry_id =
      telFormat tid := rfl

theorem genRecord_recLabel (g : RandStream) (cascade : List String)
    (scenario : String) (hour minute : Nat) (node : Node) (tid rix : Nat) :
    recLabel (genRecord g cascade scenario hour minute node tid rix).1 =
      (scenario, node.node_id) := rfl

theorem range_map_add {α : Type} (f : Nat → α) (tid a b : Nat) :
    (List.range a).map (fun j => f (tid + j)) ++
        (List.range b).map (fun j => f (tid + a + j)) =
      (List.range (a + b)).map (fun j => f (tid + j)) := by
  rw [List.range_add, List.map_append, List.map_map]
  congr 1
  refine List.map_congr_left ?_
  intro j _
  show f (tid + a + j) = f (tid + (a + j))
  exact congrArg f (by omega)

theorem genNodesLoop_spec (g : RandStream) (cascade : List String)
    (scenario : String) (hour minute : Nat) :
    ∀ (nodes : List Node) (tid rix : Nat),
      (genNodesLoop g cascade scenario hour minute nodes tid rix).2.1 =
          tid + nodes.length ∧
        (genNodesLoop g cascade scenario hour minute nodes tid rix).1.map
            TelemetryRecord.telemetry_id =
          (List.range nodes.length).map (fun j => telFormat (tid + j)) ∧
        (genNodesLoop g cascade scenario hour minute nodes tid rix).1.map
            recLabel =
          nodes.map (fun n => (scenario, n.node_id)) := by
  intro nodes
  induction nodes with
  | nil =>
      intro tid rix
      exact ⟨by simp [genNodesLoop], by simp [genNodesLoop],
        by simp [genNodesLoop]⟩
  | cons n rest ih =>
      intro tid rix
      obtain ⟨ih1, ih2, ih3⟩ :=
        ih (tid + 1) (genRecord g cascade scenario hour minute n tid rix).2
      simp only [genNodesLoop]
      refine ⟨?_, ?_, ?_⟩
      · rw [ih1, List.length_cons]
        omega
      · rw [List.map_cons, ih2, genRecord_telemetry_id, List.length_cons,
          List.range_succ_eq_map, List.map_cons, List.map_map]
        have hhead : tid + 0 = tid := by omega
        rw [hhead]
        exact congrArg (List.cons (telFormat tid))
          (List.map_congr_left fun j _ => congrArg telFormat (by omega))
      · rw [List.map_cons, ih3, genRecord_recLabel, List.map_cons]

theorem genMinutesLoop_spec (g : RandStream) (cascade : List String)
    (scenario : String) (hour : Nat) (nodes : List Node) :
    ∀ (ms : List Nat) (tid rix : Nat),
      (genMinutesLoop g cascade scenario hour nodes ms tid rix).2.1 =
          tid + ms.length * nodes.length ∧
        (genMinutesLoop g cascade scenario hour nodes ms tid rix).1.map
            TelemetryRecord.telemetry_id =
          (List.range (ms.length * nodes.length)).map
            (fun j => telFormat (tid + j)) ∧
        (genMinutesLoop g cascade scenario hour nodes ms tid rix).1.map
            recLabel =
          ms.flatMap (fun _ => nodes.map (fun n => (scenario, n.node_id))) := by
  intro ms
  induction ms with
  | nil =>
      intro tid rix
      exact ⟨by simp [genMinutesLoop], by simp [genMinutesLoop],
        by simp [genMinutesLoop]⟩
  | cons m ms ih =>
      intro tid rix
      obtain ⟨hp1, hp2, hp3⟩ :=
        genNodesLoop_spec g cascade scenario hour m nodes tid rix
      obtain ⟨ih1, ih2, ih3⟩ :=
        ih (genNodesLoop g cascade scenario hour m nodes tid rix).2.1
          (genNodesLoop g cascade scenario hour m nodes tid rix).2.2
      simp only [genMinutesLoop]
      refine ⟨?_, ?_, ?_⟩
      · rw [ih1, hp1, List.length_cons]
        ring
      · rw [List.map_append, ih2, hp1, hp2, List.length_cons]
        have harith : (ms.length + 1) * nodes.length =
            nodes.length + ms.length * nodes.length := by ring
        rw [harith]
        exact range_map_add telFormat tid nodes.length
          (ms.length * nodes.length)
      · rw [List.map_append, ih3, hp3, List.flatMap_cons]

theorem genHoursLoop_spec (g : RandStream) (cascade : List String)
    (scenario : String) (nodes : List Node) :
    ∀ (hs : List Nat) (tid rix : Nat),
      (genHoursLoop g cascade scenario nodes hs tid rix).2.1 =
          tid + hs.length * (4 * nodes.length) ∧
        (genHoursLoop g cascade scenario nodes hs tid rix).1.map
            TelemetryRecord.telemetry_id =
          (List.range (hs.length * (4 * nodes.length))).map
            (fun j => telFormat (tid + j)) ∧
        (genHoursLoop g cascade scenario nodes hs tid rix).1.map recLabel =
          hs.flatMap (fun _ => MINUTES.flatMap
            (fun _ => nodes.map (fun n => (scenario, n.node_id)))) := by
  intro hs
  induction hs with
  | nil =>
      intro tid rix
      exact ⟨by simp [genHoursLoop], by simp [genHoursLoop],
        by simp [genHoursLoop]⟩
  | cons h hs ih =>
      intro tid rix
      obtain ⟨hp1, hp2, hp3⟩ :=
        genMinutesLoop_spec g cascade scenario h nodes MINUTES tid rix
      obtain ⟨ih1, ih2, ih3⟩ :=
        ih (genMinutesLoop g cascade scenario h nodes MINUTES tid rix).2.1
          (genMinutesLoop g cascade scenario h nodes MINUTES tid rix).2.2
      have hlen : MINUTES.length = 4 := rfl
      simp only [genHoursLoop]
      refine ⟨?_, ?_, ?_⟩
      · rw [ih1, hp1, hlen, List.length_cons]
        ring
      · rw [List.map_append, ih2, hp1, hp2, hlen, List.length_cons]
        have harith : (hs.length + 1) * (4 * nodes.length) =
            4 * nodes.length + hs.length * (4 * nodes.length) := by ring
        rw [harith]
        exact range_map_add telFormat tid (4 * nodes.length)
          (hs.length * (4 * nodes.length))
      · rw [List.map_append, ih3, hp3, List.flatMap_cons]

theorem genScenariosLoop_spec (g : RandStream) (cascade : List String)
    (nodes : List Node) :
    ∀ (ss : List String) (tid rix : Nat),
      (genScenariosLoop g cascade nodes ss tid rix).2.1 =
          tid + ss.length * (24 * (4 * nodes.length)) ∧
        (genScenariosLoop g cascade nodes ss tid rix).1.map
            TelemetryRecord.telemetry_id =
          (List.range (ss.length * (24 * (4 * nodes.length)))).map
            (fun j => telFormat (tid + j)) ∧
        (genScenariosLoop g cascade nodes ss tid rix).1.map recLabel =
          ss.flatMap (fun s => (List.range 24).flatMap
            (fun _ => MINUTES.flatMap
              (fun _ => nodes.map (fun n => (s, n.node_id))))) := by
  intro ss
  induction ss with
  | nil =>
      intro tid rix
      exact ⟨by simp [genScenariosLoop], by simp [genScenariosLoop],
        by simp [genScenariosLoop]⟩
  | cons s ss ih =>
      intro tid rix
      obtain ⟨hp1, hp2, hp3⟩ :=
        genHoursLoop_spec g cascade s nodes (List.range 24) tid rix
      obtain ⟨ih1, ih2, ih3⟩ :=
        ih (genHoursLoop g cascade s nodes (List.range 24) tid rix).2.1
          (genHoursLoop g cascade s nodes (List.range 24) tid rix).2.2
      have hlen : (List.range 24).length = 24 := by simp
      simp only [genScenariosLoop]
      refine ⟨?_, ?_, ?_⟩
      · rw [ih1, hp1, hlen, List.length_cons]
        ring
      · rw [List.map_append, ih2, hp1, hp2, hlen, List.length_cons]
        have harith : (ss.length + 1) * (24 * (4 * nodes.length)) =
            24 * (4 * nodes.length) +
              ss.length * (24 * (4 * nodes.length)) := by ring
        rw [harith]
        exact range_map_add telFormat tid (24 * (4 * nodes.length))
          (ss.length * (24 * (4 * nodes.length)))
      · rw [List.map_append, ih3, hp3, List.flatMap_cons]

/-- The telemetry ids of the generated rows: `TEL_` + zero-padded 1, 2, 3,
… in order. -/
theorem telemetry_ids_eq (g : RandStream) (nodes : List Node) :
    (generate_historical_telemetry g nodes).map
        TelemetryRecord.telemetry_id =
      (List.range (288 * nodes.length)).map (fun j => telFormat (1 + j)) := by
  obtain ⟨-, h2, -⟩ := genScenariosLoop_spec g (buildCascade g nodes 0).1
    nodes SCENARIOS 1 (buildCascade g nodes 0).2
  show (genScenariosLoop g (buildCascade g nodes 0).1 nodes SCENARIOS 1
      (buildCascade g nodes 0).2).1.map TelemetryRecord.telemetry_id = _
  rw [h2]
  have harith : SCENARIOS.length * (24 * (4 * nodes.length)) =
      288 * nodes.length := by
    show 3 * (24 * (4 * nodes.length)) = 288 * nodes.length
    ring
  rw [harith]

/-- The `(scenario, node_id)` labels of the generated rows, in generation
order: scenarios outermost, then hours, quarter-hours, and nodes. -/
theorem telemetry_labels_eq (g : RandStream) (nodes : List Node) :
    (generate_historical_telemetry g nodes).map recLabel =
      SCENARIOS.flatMap (fun s => (List.range 24).flatMap
        (fun _ => MINUTES.flatMap
          (fun _ => nodes.map (fun n => (s, n.node_id))))) := by
  obtain ⟨-, -, h3⟩ := genScenariosLoop_spec g (buildCascade g nodes 0).1
    nodes SCENARIOS 1 (buildCascade g nodes 0).2
  exact h3

theorem countP_flatMap_const {α β : Type} (p : β → Bool) (blk : List β) :
    ∀ l : List α,
      ((l.flatMap fun _ => blk).countP p) = l.length * blk.countP p := by
  intro l
  induction l with
  | nil => simp
  | cons a as ih =>
      rw [List.flatMap_cons, List.countP_append, ih, List.length_cons]
      ring

/-- How many generated rows carry a given node id: 288 per occurrence of
that id in the node list. -/
theorem telemetry_count (g : RandStream) (nodes : List Node) (nid : String) :
    (generate_historical_telemetry g nodes).countP
        (fun r => r.node_id == nid) =
      288 * nodes.countP (fun n => n.node_id == nid) := by
  have h1 : (generate_historical_telemetry g nodes).countP
      (fun r => r.node_id == nid) =
      ((generate_historical_telemetry g nodes).map recLabel).countP
        (fun pr => pr.2 == nid) := by
    rw [List.countP_map]
    rfl
  rw [h1, telemetry_labels_eq]
  have hblock : ∀ s : String,
      (((List.range 24).flatMap (fun _ => MINUTES.flatMap
        (fun _ => nodes.map (fun n => (s, n.node_id))))).countP
          (fun pr => pr.2 == nid)) =
        96 * nodes.countP (fun n => n.node_id == nid) := by
    intro s
    rw [countP_flatMap_const, countP_flatMap_const]
    have hm : ((nodes.map (fun n => ((s : String), n.node_id))).countP
        (fun pr => pr.2 == nid)) =
        nodes.countP (fun n => n.node_id == nid) := by
      rw [List.countP_map]
      rfl
    rw [hm]
    have h24 : (List.range 24).length = 24 := by simp
    have h4 : MINUTES.length = 4 := rfl
    rw [h24, h4]
    ring
  show ((SCENARIOS.flatMap fun s => (List.range 24).flatMap
    (fun _ => MINUTES.flatMap
      (fun _ => nodes.map (fun n => (s, n.node_id))))).countP
        (fun pr => pr.2 == nid)) = _
  simp only [SCENARIOS, List.flatMap_cons, List.flatMap_nil,
    List.append_nil, List.countP_append]
  rw [hblock, hblock, hblock]
  ring

theorem countP_node_id_eq_one {nodes : List Node}
    (hnd : (nodes.map Node.node_id).Nodup) {n : Node} (hn : n ∈ nodes) :
    nodes.countP (fun m => m.node_id == n.node_id) = 1 := by
  induction nodes with
  | nil => cases hn
  | cons hd tl ih =>
      simp only [List.map_cons, List.nodup_cons] at hnd
      rcases List.mem_cons.mp hn with rfl | htl
      · rw [List.countP_cons]
        have h0 : tl.countP (fun m => m.node_id == n.node_id) = 0 := by
          rw [List.countP_eq_zero]
          intro m hm
          simp only [beq_iff_eq]
          intro he
          exact hnd.1 (he ▸ List.mem_map_of_mem Node.node_id hm)
        rw [h0]
        simp
      · have hne : hd.node_id ≠ n.node_id := by
          intro he
          exact hnd.1 (he ▸ List.mem_map_of_mem Node.node_id htl)
        rw [List.countP_cons]
        simp only [beq_iff_eq, hne, if_false]
        exact ih hnd.2 htl

/-! ## The claims -/

/-- C1.  For every mapping of request names to query payloads (keys
non-empty, unique) and every `max_workers ≥ 1`, and whatever order
`as_completed` yields the futures in, the `results` dict returned by
`run_queries_parallel` has exactly the submitted names as keys: every
submitted name is present and no other key appears, even when some or all of
the individual queries fail. -/
theorem dispatch_key_set (session : Session) (k : Nat)
    (queries completed : List (String × String))
    (hk : 1 ≤ k) (hkeys : ∀ p ∈ queries, p.1 ≠ "")
    (hnd : (queries.map Prod.fst).Nodup)
    (hperm : completed.Perm queries) (a : String) :
    a ∈ dictKeys (run_queries_parallel session k completed).results ↔
      a ∈ queries.map Prod.fst := by
  unfold run_queries_parallel
  rw [foldl_dispatch_keys]
  have : a ∈ completed.map Prod.fst ↔ a ∈ queries.map Prod.fst :=
    (hperm.map Prod.fst).mem_iff
  simp [dictKeys, this]

theorem dispatch_key_set_witness :
    1 ≤ 4 ∧ (∀ p ∈ queriesCex, p.1 ≠ "") ∧
      (queriesCex.map Prod.fst).Nodup ∧ queriesCex.Perm queriesCex ∧
      ("a" ∈ dictKeys (run_queries_parallel sessionCex 4 queriesCex).results ↔
        "a" ∈ queriesCex.map Prod.fst) :=
  ⟨by decide, by decide, by decide, List.Perm.refl _,
    dispatch_key_set sessionCex 4 queriesCex queriesCex (by decide) (by decide)
      (by decide) (List.Perm.refl _) "a"⟩

/-- C2.  The inner `execute_query` never lets a failure of the external data
source propagate: for every session, name and payload it returns a triple
that carries the name, and any exception raised by
`session.sql(sql).to_pandas()` is caught and returned as the stringified
error slot rather than re-raised. -/
theorem execute_query_never_raises (session : Session) (name sql : String) :
    (∃ df, session sql = .ok df ∧
        execute_query session name sql = (name, some df, none)) ∨
    (∃ e, session sql = .exn e ∧
        execute_query session name sql = (name, none, some e)) := by
  cases h : session sql with
  | ok df => exact Or.inl ⟨df, rfl, by unfold execute_query; rw [h]⟩
  | exn e => exact Or.inr ⟨e, rfl, by unfold execute_query; rw [h]⟩

/-- C3, counterexample to the claim as stated.  On the spec's own concrete
scenario — requests `{"a": fail_payload, "b": ok_payload_returning_3_rows}`,
`max_concurrency = 4`, where the failing payload raises an exception
stringifying to `"boom"` — the returned map binds `"a"` to Python `None`
(a null value, exactly what the claim rules out), not to a Failure outcome
carrying the name and the error description; that description goes to the
`st.error` side channel instead.  `"b"` is bound to its three-row table. -/
theorem dispatch_failure_binds_null_cex :
    dictLookup (run_queries_parallel sessionCex 4 queriesCex).results "a" =
        some none ∧
      (run_queries_parallel sessionCex 4 queriesCex).warnings =
        [failMsg "a" "boom"] ∧
      dictLookup (run_queries_parallel sessionCex 4 queriesCex).results "b" =
        some (some [["r1"], ["r2"], ["r3"]]) := by
  decide

/-- C3 as amended by the counterexample.  When a request's execution fails
with a non-empty stringified error, the returned map binds that request's
name to `None` (a null marker, not a Failure value), and the name together
with the error description is surfaced as the user-visible warning
`Query '<name>' failed: <error>`. -/
theorem dispatch_failure_null_and_warning (session : Session) (k : Nat)
    (queries completed : List (String × String)) (name sql e : String)
    (hperm : completed.Perm queries) (hnd : (queries.map Prod.fst).Nodup)
    (hmem : (name, sql) ∈ queries) (hfail : session sql = .exn e)
    (hne : e ≠ "") :
    dictLookup (run_queries_parallel session k completed).results name =
        some none ∧
      failMsg name e ∈ (run_queries_parallel session k completed).warnings := by
  have hndc : (completed.map Prod.fst).Nodup :=
    ((hperm.map Prod.fst).nodup_iff).mpr hnd
  have hmemc : (name, sql) ∈ completed := hperm.mem_iff.mpr hmem
  constructor
  · unfold run_queries_parallel
    rw [foldl_dispatch_lookup_mem session completed _ name sql hmemc hndc]
    have hexec : execute_query session name sql = (name, none, some e) := by
      unfold execute_query
      rw [hfail]
    rw [hexec]
    simp [storedVal, isTruthyError, hne]
  · exact foldl_dispatch_warning_of_fail session completed _ name sql e hmemc
      hfail hne

theorem dispatch_failure_null_and_warning_witness :
    queriesCex.Perm queriesCex ∧ (queriesCex.map Prod.fst).Nodup ∧
      ("a", "FAILQ") ∈ queriesCex ∧ sessionCex "FAILQ" = .exn "boom" ∧
      (dictLookup (run_queries_parallel sessionCex 4 queriesCex).results "a" =
          some none ∧
        failMsg "a" "boom" ∈
          (run_queries_parallel sessionCex 4 queriesCex).warnings) :=
  ⟨List.Perm.refl _, by decide, by decide, by decide,
    dispatch_failure_null_and_warning sessionCex 4 queriesCex queriesCex
      "a" "FAILQ" "boom" (List.Perm.refl _) (by decide) (by decide) (by decide)
      (by decide)⟩

/-- C4.  If exactly one request in a batch of two or more always fails (its
payload raises) while every sibling's payload succeeds, then every sibling
still ends up bound to its own successful table in the returned map: one
query's failure does not cancel, alter or discard any other query's
result. -/
theorem dispatch_failure_isolation (session : Session) (k : Nat)
    (queries completed : List (String × String)) (failName failSql : String)
    (hperm : completed.Perm queries) (hnd : (queries.map Prod.fst).Nodup)
    (hsize : 2 ≤ queries.length) (hfmem : (failName, failSql) ∈ queries)
    (hfail : ∃ e, session failSql = .exn e)
    (hsucc : ∀ n q, (n, q) ∈ queries → n ≠ failName →
      ∃ df, session q = .ok df) :
    ∀ n q, (n, q) ∈ queries → n ≠ failName →
      ∃ df, session q = .ok df ∧
        dictLookup (run_queries_parallel session k completed).results n =
          some (some df) := by
  intro n q hmem hne
  obtain ⟨df, hdf⟩ := hsucc n q hmem hne
  refine ⟨df, hdf, ?_⟩
  have hndc : (completed.map Prod.fst).Nodup :=
    ((hperm.map Prod.fst).nodup_iff).mpr hnd
  have hmemc : (n, q) ∈ completed := hperm.mem_iff.mpr hmem
  unfold run_queries_parallel
  rw [foldl_dispatch_lookup_mem session completed _ n q hmemc hndc]
  have hexec : execute_query session n q = (n, some df, none) := by
    unfold execute_query
    rw [hdf]
  rw [hexec]
  simp [storedVal, isTruthyError]

theorem dispatch_failure_isolation_witness :
    queriesCex.Perm queriesCex ∧ (queriesCex.map Prod.fst).Nodup ∧
      2 ≤ queriesCex.length ∧ ("a", "FAILQ") ∈ queriesCex ∧
      (∃ e, sessionCex "FAILQ" = .exn e) ∧
      (∃ df, sessionCex "OKQ" = .ok df ∧
        dictLookup (run_queries_parallel sessionCex 4 queriesCex).results "b" =
          some (some df)) :=
  ⟨List.Perm.refl _, by decide, by decide, by decide, ⟨"boom", by decide⟩,
    dispatch_failure_isolation sessionCex 4 queriesCex queriesCex "a" "FAILQ"
      (List.Perm.refl _) (by decide) (by decide) (by decide)
      ⟨"boom", by decide⟩
      (by
        intro n q hq hn
        simp only [queriesCex, List.mem_cons, List.not_mem_nil, or_false,
          Prod.mk.injEq] at hq
        rcases hq with ⟨hn1, _⟩ | ⟨_, hq2⟩
        · exact absurd hn1 hn
        · exact ⟨[["r1"], ["r2"], ["r3"]], by rw [hq2]; decide⟩)
      "b" "OKQ" (by decide) (by decide)⟩

/-- C5.  For every batch and every request name `n` in it, the value stored
in the returned map under key `n` is exactly what the collection loop makes
of the triple produced by executing `n`'s own payload, and that triple
carries the same name `n`: no cross-wiring between workers and result
slots. -/
theorem dispatch_no_cross_wiring (session : Session) (k : Nat)
    (queries completed : List (String × String)) (n q : String)
    (hperm : completed.Perm queries) (hnd : (queries.map Prod.fst).Nodup)
    (hmem : (n, q) ∈ queries) :
    (execute_query session n q).1 = n ∧
      dictLookup (run_queries_parallel session k completed).results n =
        some (storedVal (execute_query session n q)) := by
  have hndc : (completed.map Prod.fst).Nodup :=
    ((hperm.map Prod.fst).nodup_iff).mpr hnd
  have hmemc : (n, q) ∈ completed := hperm.mem_iff.mpr hmem
  exact ⟨execute_query_fst .., by
    unfold run_queries_parallel
    exact foldl_dispatch_lookup_mem session completed _ n q hmemc hndc⟩

theorem dispatch_no_cross_wiring_witness :
    queriesCex.Perm queriesCex ∧ (queriesCex.map Prod.fst).Nodup ∧
      ("b", "OKQ") ∈ queriesCex ∧
      ((execute_query sessionCex "b" "OKQ").1 = "b" ∧
        dictLookup (run_queries_parallel sessionCex 4 queriesCex).results "b" =
          some (storedVal (execute_query sessionCex "b" "OKQ"))) :=
  ⟨List.Perm.refl _, by decide, by decide,
    dispatch_no_cross_wiring sessionCex 4 queriesCex queriesCex "b" "OKQ"
      (List.Perm.refl _) (by decide) (by decide)⟩

/-- C6.  For every `max_workers k ≥ 1`, dispatching the empty request
mapping returns the empty map with no warnings, and the query executor is
never invoked (the instrumentation counter stays at zero). -/
theorem dispatch_empty (session : Session) (k : Nat)
    (completed : List (String × String)) (hk : 1 ≤ k)
    (hperm : completed.Perm []) :
    run_queries_parallel session k completed = ⟨[], [], 0⟩ := by
  rw [List.perm_nil.mp hperm]
  rfl

theorem dispatch_empty_witness :
    1 ≤ 4 ∧ run_queries_parallel sessionOk 4 [] = ⟨[], [], 0⟩ :=
  ⟨by decide, dispatch_empty sessionOk 4 [] (by decide) (List.Perm.refl _)⟩

/-- C7.  On a pool of `k` worker threads each running its tasks strictly one
after another — the `ThreadPoolExecutor(max_workers=k)` discipline
`run_queries_parallel` submits to — the number of simultaneously active
query-executor calls never exceeds `k` at any instant, in particular for
batches of more than `k` requests: excess tasks wait for a worker slot. -/
theorem dispatch_concurrency_bound {k n : Nat} (s : PoolSchedule k n)
    (hkn : k < n) (t : Nat) : (activeAt s t).card ≤ k := by
  have hinj : Set.InjOn s.worker (activeAt s t) := by
    intro i hi j hj hw
    by_contra hne
    simp only [activeAt, Finset.coe_filter, Set.mem_setOf_eq] at hi hj
    obtain ⟨hi1, hi2⟩ := hi.2
    obtain ⟨hj1, hj2⟩ := hj.2
    rcases s.worker_sequential i j hne hw with hle | hle <;> omega
  calc (activeAt s t).card ≤ (Finset.univ : Finset (Fin k)).card :=
        Finset.card_le_card_of_injOn s.worker (fun a _ => Finset.mem_univ _)
          hinj
    _ = k := by simp

theorem dispatch_concurrency_bound_witness :
    1 < 2 ∧ (activeAt schedTwo 0).card ≤ 1 :=
  ⟨by decide, dispatch_concurrency_bound schedTwo (by decide) 0⟩

/-- C9.  Failure detection in the collection loop is by truthiness of the
stringified error, not by whether an exception occurred: when a request's
execution raises an exception that stringifies to the empty string,
`run_queries_parallel` takes the success branch — it stores the `None`
result slot under that request's name and appends no user-visible warning —
and in general the failure branch is taken if and only if the stringified
exception is non-empty. -/
theorem dispatch_empty_error_string (session : Session) (k : Nat)
    (queries completed : List (String × String)) (name sql : String)
    (hperm : completed.Perm queries) (hnd : (queries.map Prod.fst).Nodup)
    (hmem : (name, sql) ∈ queries) (hfail : session sql = .exn "") :
    dictLookup (run_queries_parallel session k completed).results name =
        some none ∧
      (∀ st : DispatchState,
        collectOne st (execute_query session name sql) =
          { st with results := dictInsert st.results name none }) ∧
      (∀ e : String, isTruthyError (some e) = true ↔ e ≠ "") := by
  have hexec : execute_query session name sql = (name, none, some "") := by
    unfold execute_query
    rw [hfail]
  have hndc : (completed.map Prod.fst).Nodup :=
    ((hperm.map Prod.fst).nodup_iff).mpr hnd
  have hmemc : (name, sql) ∈ completed := hperm.mem_iff.mpr hmem
  refine ⟨?_, ?_, ?_⟩
  · unfold run_queries_parallel
    rw [foldl_dispatch_lookup_mem session completed _ name sql hmemc hndc]
    rw [hexec]
    rfl
  · intro st
    rw [hexec]
    rfl
  · intro e
    simp [isTruthyError]

theorem dispatch_empty_error_string_witness :
    queriesCex.Perm queriesCex ∧ (queriesCex.map Prod.fst).Nodup ∧
      ("a", "FAILQ") ∈ queriesCex ∧ sessionEmptyErr "FAILQ" = .exn "" ∧
      dictLookup
          (run_queries_parallel sessionEmptyErr 4 queriesCex).results "a" =
        some none :=
  ⟨List.Perm.refl _, by decide, by decide, by decide,
    (dispatch_empty_error_string sessionEmptyErr 4 queriesCex queriesCex
      "a" "FAILQ" (List.Perm.refl _) (by decide) (by decide) (by decide)).1⟩

/-- C8.  The synthetic-data generator is deterministic given its fixed
random seed — with the `random` module modelled as a stream of draws that
is a pure function of the seed, two runs seeded with `RANDOM_SEED = 42`
produce identical historical-telemetry CSV contents — and `main`'s
command-line interface accepts an output-directory argument defaulting to
the repository's data/synthetic directory (and using the given directory
when one is passed). -/
theorem generator_deterministic :
    (∀ (nodes : List Node) (out1 out2 : String),
        out1 = generatorRun RANDOM_SEED nodes →
        out2 = generatorRun RANDOM_SEED nodes → out1 = out2) ∧
      parse_output_dir none = DEFAULT_OUTPUT_DIR ∧
      (∀ dir : String, parse_output_dir (some dir) = dir) ∧
      RANDOM_SEED = 42 :=
  ⟨fun _ _ _ h1 h2 => h1.trans h2.symm, rfl, fun _ => rfl, rfl⟩

theorem generator_deterministic_witness :
    generatorRun RANDOM_SEED [nodeX] = generatorRun RANDOM_SEED [nodeX] ∧
      parse_output_dir none = DEFAULT_OUTPUT_DIR :=
  ⟨generator_deterministic.1 [nodeX] _ _ rfl rfl,
    generator_deterministic.2.1⟩

/-- C10, counterexample to the claim as stated over every non-empty node
list.  For the two-element list that repeats one node,
`generate_historical_telemetry` produces `2 × 288 = 576` records carrying
that node's `NODE_ID` — not exactly 288 as the claim asserts of every
non-empty list. -/
theorem telemetry_per_node_cex :
    (generate_historical_telemetry gZero [nodeX, nodeX]).countP
        (fun r => r.node_id == "N1") = 576 ∧
      ¬ (generate_historical_telemetry gZero [nodeX, nodeX]).countP
          (fun r => r.node_id == "N1") = 288 := by
  have h := telemetry_count gZero [nodeX, nodeX] "N1"
  have hc : ([nodeX, nodeX].countP fun n => n.node_id == "N1") = 2 := by
    decide
  rw [hc] at h
  exact ⟨h, by rw [h]; decide⟩

/-- C10 as amended by the counterexample: the claim holds for every
non-empty node list whose `NODE_ID`s are pairwise distinct.  For every such
list, `generate_historical_telemetry` produces exactly `3 × 24 × 4 = 288`
records per node; the telemetry ids of the full run are the distinct
sequential `TEL_`-formatted numbers starting at `TEL_000001`; and the rows
carry, in generation order (scenarios, then hours, quarter-hours, nodes),
exactly the owning node's `NODE_ID` and the scenario name. -/
theorem telemetry_per_node (g : RandStream) (nodes : List Node)
    (hne : nodes ≠ []) (hnd : (nodes.map Node.node_id).Nodup) :
    (∀ n ∈ nodes, (generate_historical_telemetry g nodes).countP
        (fun r => r.node_id == n.node_id) = 288) ∧
      (generate_historical_telemetry g nodes).map
          TelemetryRecord.telemetry_id =
        (List.range (288 * nodes.length)).map (fun j => telFormat (1 + j)) ∧
      ((generate_historical_telemetry g nodes).map
        TelemetryRecord.telemetry_id).Nodup ∧
      (generate_historical_telemetry g nodes).map recLabel =
        SCENARIOS.flatMap (fun s => (List.range 24).flatMap
          (fun _ => MINUTES.flatMap
            (fun _ => nodes.map (fun n => (s, n.node_id))))) := by
  refine ⟨?_, telemetry_ids_eq g nodes, ?_, telemetry_labels_eq g nodes⟩
  · intro n hn
    rw [telemetry_count g nodes n.node_id, countP_node_id_eq_one hnd hn]
  · rw [telemetry_ids_eq g nodes]
    refine List.Nodup.map ?_ (List.nodup_range _)
    intro a b hab
    have := telFormat_injective hab
    omega

theorem telemetry_per_node_witness :
    [nodeX] ≠ [] ∧ ([nodeX].map Node.node_id).Nodup ∧
      (generate_historical_telemetry gZero [nodeX]).countP
        (fun r => r.node_id == nodeX.node_id) = 288 :=
  ⟨by decide, by decide,
    (telemetry_per_node gZero [nodeX] (by decide) (by decide)).1 nodeX
      (by decide)⟩

end GridGuard
